import Mathlib

/-!
Shallow embedding of `src/pallets/oracle/src/lib.rs` (the cable-oracle pallet).

Bytes are modelled as `Nat` (with `< 256` bounds as hypotheses where the claim
needs them); byte strings as `List Nat`; text as `List Char`.  The external
host primitives consumed by the pallet — SCALE `Encode::encode` of the account
id, `keccak_256` and `secp256k1_ecdsa_recover` from `sp_io` — are not code of
this repository, so the pallet functions are parametrised over them; concrete
stand-ins are supplied only to evaluate the functions at concrete inputs.
-/

namespace CableOracle

/-- `EthereumAddress([u8; 20])` — the 20 bytes of the address. -/
structure EthereumAddress where
  bytes : List Nat
deriving DecidableEq

/-- `EcdsaSignature(pub [u8; 65])`. -/
structure EcdsaSignature where
  bytes : List Nat
deriving DecidableEq

/-- `Message([u8; 256])`. -/
structure Message where
  bytes : List Nat
deriving DecidableEq

/-! ### Address codec (`impl Serialize / Deserialize for EthereumAddress`) -/

/-- The lowercase hex digit table of `rustc_hex::ToHex`. -/
def hexDigitChar (n : Nat) : Char := "0123456789abcdef".toList.getD n '0'

/-- `rustc_hex::ToHex::to_hex`: each byte becomes high nibble then low nibble. -/
def toHex (bs : List Nat) : List Char :=
  (bs.map (fun b => [hexDigitChar (b / 16), hexDigitChar (b % 16)])).flatten

/-- `EthereumAddress::serialize`: the string `0x` followed by the lowercase hex
of the 20 bytes. -/
def serialize (a : EthereumAddress) : List Char :=
  '0' :: 'x' :: toHex a.bytes

/-- The value of one hex character, as decoded by `rustc_hex::FromHex`. -/
def fromHexDigit (c : Char) : Option Nat :=
  if 'A' ≤ c ∧ c ≤ 'F' then some (c.toNat - 'A'.toNat + 10)
  else if 'a' ≤ c ∧ c ≤ 'f' then some (c.toNat - 'a'.toNat + 10)
  else if '0' ≤ c ∧ c ≤ '9' then some (c.toNat - '0'.toNat)
  else none

/-- Errors of `rustc_hex::FromHex`. -/
inductive FromHexError
  | invalidHexCharacter
  | invalidHexLength
deriving DecidableEq

/-- `rustc_hex::FromHex::from_hex`: consumes hex characters two at a time;
the first non-hex character is an error, an odd count of characters is an
error. -/
def from_hex : List Char → Except FromHexError (List Nat)
  | [] => .ok []
  | [c] =>
    match fromHexDigit c with
    | none => .error .invalidHexCharacter
    | some _ => .error .invalidHexLength
  | c1 :: c2 :: rest =>
    match fromHexDigit c1 with
    | none => .error .invalidHexCharacter
    | some h =>
      match fromHexDigit c2 with
      | none => .error .invalidHexCharacter
      | some l => (from_hex rest).map (fun bs => (16 * h + l) :: bs)

/-- The two failure modes of `EthereumAddress::deserialize` (the serde custom
errors: bad length of the address text, and a hex-decoding failure). -/
inductive DeserializeError
  | invalidAddressLength
  | invalidHexDigit
deriving DecidableEq

/-- `EthereumAddress::deserialize`: strip an optional `0x`, require exactly 40
remaining characters, hex-decode them into the 20 bytes. -/
def deserialize (s : List Char) : Except DeserializeError EthereumAddress :=
  let t := if s.take 2 = ['0', 'x'] then s.drop 2 else s
  if t.length ≠ 40 then .error .invalidAddressLength
  else
    match from_hex t with
    | .error _ => .error .invalidHexDigit
    | .ok raw => .ok ⟨raw⟩

/-! ### `Pallet::ethereum_signable_message` and `Pallet::eth_recover` -/

/-- The `while l > 0 { rev.push(b'0' + (l % 10) as u8); l /= 10 }` loop of
`ethereum_signable_message`, with an explicit fuel for structural recursion
(`lenDigitsRev` below supplies fuel `l`, which is enough since a positive
number has at most as many decimal digits as its value). -/
def lenDigitsRevAux : Nat → Nat → List Nat
  | 0, _ => []
  | fuel + 1, l => if l = 0 then [] else (48 + l % 10) :: lenDigitsRevAux fuel (l / 10)

/-- The reversed decimal digits (as ASCII bytes) of `l` produced by the loop:
empty when `l = 0`, least-significant digit first otherwise. -/
def lenDigitsRev (l : Nat) : List Nat := lenDigitsRevAux l l

/-- `Pallet::ethereum_signable_message(what, extra)`: the literal prefix
`"\x19Ethereum Signed Message:\n"`, then the loop's digits reversed back to
most-significant-first, then `what`, then `extra`. -/
def ethereum_signable_message (what extra : List Nat) : List Nat :=
  ("\x19Ethereum Signed Message:\n".toList.map Char.toNat)
    ++ (lenDigitsRev (what.length + extra.length)).reverse ++ what ++ extra

/-- `Pallet::eth_recover(s, what, extra)`: keccak the signable message, run
secp256k1 recovery (`.ok()?` turns any failure into `none`), then keccak the
recovered public key and keep bytes `[12..]` of the 32-byte digest.  `keccak`
and `secpRecover` stand for the host primitives `sp_io::hashing::keccak_256`
and `sp_io::crypto::secp256k1_ecdsa_recover`. -/
def eth_recover (keccak : List Nat → List Nat)
    (secpRecover : List Nat → List Nat → Option (List Nat))
    (s : EcdsaSignature) (what extra : List Nat) : Option EthereumAddress :=
  let msg := keccak (ethereum_signable_message what extra)
  match secpRecover s.bytes msg with
  | none => none
  | some pubkey => some ⟨(keccak pubkey).drop 12⟩

/-! ### The pallet call `verify_message` and its storage/event context -/

/-- The `MessageState` storage map: `StorageMap<_, Blake2_128Concat, Message, bool>`,
modelled as the partial map it denotes. -/
def RegistryState : Type := Message → Option Bool

/-- The dispatch origin, as classified by `ensure_none` / `ensure_signed` /
`ensure_root`. -/
inductive Origin (AccountId : Type)
  | none
  | signed (account : AccountId)
  | root

/-- `Error<T>` of the pallet. -/
inductive PalletError
  | invalidSignature
  | invalidSigner
  | messageAlreadyVerified
deriving DecidableEq

/-- Dispatch errors reachable from `verify_message`: `ensure_none` failing
with a bad origin, or a pallet `Error<T>`. -/
inductive DispatchError
  | badOrigin
  | module (e : PalletError)
deriving DecidableEq

/-- `Event<T>`: `MessageVerified(T::AccountId, Message, bool)`. -/
inductive PalletEvent (AccountId : Type)
  | messageVerified (account : AccountId) (message : Message) (b : Bool)

/-- The observable outcome of one `verify_message` dispatch: its returned
result, the `MessageState` storage after the call, and the events deposited
by the call. -/
structure VerifyOutcome (AccountId : Type) where
  result : Except DispatchError Unit
  state : RegistryState
  events : List (PalletEvent AccountId)

/-- `Pallet::verify_message(origin, account, message, signature)`:
`ensure_none(origin)?`, then
`ensure!(MessageState::get(&message).is_some(), MessageAlreadyVerified)`,
then `eth_recover(&signature, &Encode::encode(&account), &message.0)`
`.ok_or(InvalidSignature)?` (the recovered signer is bound but, per the TODO
in the source, never compared to anything), then
`deposit_event(MessageVerified(account, message, true))`.  No branch writes
to `MessageState`.  `encode` stands for SCALE `Encode::encode` on the
account id. -/
def verify_message {AccountId : Type} (encode : AccountId → List Nat)
    (keccak : List Nat → List Nat)
    (secpRecover : List Nat → List Nat → Option (List Nat))
    (origin : Origin AccountId) (account : AccountId) (message : Message)
    (signature : EcdsaSignature) (st : RegistryState) : VerifyOutcome AccountId :=
  match origin with
  | .none =>
    if (st message).isSome then
      match eth_recover keccak secpRecover signature (encode account) message.bytes with
      | none => ⟨.error (.module .invalidSignature), st, []⟩
      | some _signer => ⟨.ok (), st, [.messageVerified account message true]⟩
    else ⟨.error (.module .messageAlreadyVerified), st, []⟩
  | _ => ⟨.error .badOrigin, st, []⟩

/-! ### `validate_unsigned` -/

/-- The calls of this pallet as seen by `validate_unsigned`: the
`verify_message` call, or any other call (the `_ =>` arm). -/
inductive Call (AccountId : Type)
  | verifyMessage (account : AccountId) (message : Message) (signature : EcdsaSignature)
  | otherCall

/-- The `InvalidTransaction` variants produced by `validate_unsigned`. -/
inductive InvalidTransaction
  | call
  | badProof
deriving DecidableEq

/-- `ValidTransaction`.  A `provides` tag is `("claims", signer).encode()`;
the SCALE codec is external and injective, so the tag is represented by the
pair it encodes. -/
structure ValidTransaction where
  priority : Nat
  requires : List (List Nat)
  provides : List (String × EthereumAddress)
  longevity : Nat
  propagate : Bool
deriving DecidableEq

/-- `Pallet::validate_unsigned(_source, call)`: for a `verify_message` call,
run `eth_recover` on the encoded account and the message bytes; a failed
recovery is `InvalidTransaction::BadProof`, any other call is
`InvalidTransaction::Call`; on success build the `ValidTransaction` with
`PRIORITY = 100`, empty `requires`, `provides = [("claims", signer).encode()]`,
`TransactionLongevity::max_value()` and `propagate: true`.  The function runs
against the storage snapshot `st` and returns it untouched (the body never
reads or writes `MessageState`). -/
def validate_unsigned {AccountId : Type} (encode : AccountId → List Nat)
    (keccak : List Nat → List Nat)
    (secpRecover : List Nat → List Nat → Option (List Nat))
    (call : Call AccountId) (st : RegistryState) :
    Except InvalidTransaction ValidTransaction × RegistryState :=
  match call with
  | .verifyMessage account message eth_signature =>
    (match eth_recover keccak secpRecover eth_signature (encode account) message.bytes with
     | none => .error .badProof
     | some signer => .ok ⟨100, [], [("claims", signer)], 2 ^ 64 - 1, true⟩,
     st)
  | .otherCall => (.error .call, st)

/-! ### Concrete instantiations of the external collaborators

Used to evaluate the pallet functions at concrete inputs.  `keccakConst` and
`recoverTo` instantiate the abstract host primitives (keccak and secp256k1
recovery are external to this repository); `encodeUnit` instantiates SCALE
encoding for the unit account id (whose encoding is empty). -/

def encodeUnit : Unit → List Nat := fun _ => []

/-- A constant 32-byte digest, standing in for the keccak host function. -/
def keccakConst : List Nat → List Nat := fun _ => List.replicate 32 0

/-- The recovered 64-byte public key returned by `recoverTo`. -/
def pubkey0 : List Nat := List.replicate 64 7

/-- A secp256k1 recovery stand-in that always succeeds with `pubkey0`. -/
def recoverTo : List Nat → List Nat → Option (List Nat) := fun _ _ => some pubkey0

/-- A secp256k1 recovery stand-in that always fails. -/
def recoverFail : List Nat → List Nat → Option (List Nat) := fun _ _ => none

/-- The address `eth_recover` derives under `keccakConst` and `recoverTo`. -/
def addr0 : EthereumAddress := ⟨(keccakConst pubkey0).drop 12⟩

def msg0 : Message := ⟨List.replicate 256 0⟩

def sig0 : EcdsaSignature := ⟨List.replicate 65 0⟩

/-- A registry with no entry for any message. -/
def emptyRegistry : RegistryState := fun _ => none

/-- A registry recording every message as verified. -/
def verifiedRegistry : RegistryState := fun _ => some true

/-- A registry holding the entry `false` for every message. -/
def falseRegistry : RegistryState := fun _ => some false

/-! ### Theorems about the claims -/

/-- C10: `verify_message` never writes to the `MessageState` storage map on
any path — success, failure of the deduplication ensure, failure of recovery,
or a bad origin — so the registry after the call is the registry before it. -/
theorem C10_state_frame {AccountId : Type} (encode : AccountId → List Nat)
    (keccak : List Nat → List Nat)
    (secpRecover : List Nat → List Nat → Option (List Nat))
    (origin : Origin AccountId) (account : AccountId) (message : Message)
    (signature : EcdsaSignature) (st : RegistryState) :
    (verify_message encode keccak secpRecover origin account message signature st).state = st := by
  cases origin with
  | none =>
    simp only [verify_message]
    split
    · split <;> rfl
    · rfl
  | signed a => rfl
  | root => rfl

/-- C1 (code evaluated at the failing input): with an empty registry — the
message was never verified — `verify_message` fails with
`MessageAlreadyVerified`, and with the message recorded as verified the call
proceeds past the deduplication check and succeeds.  The source's
`ensure!(MessageState::get(&message).is_some(), MessageAlreadyVerified)` is
the inversion of the claimed deduplication check. -/
theorem C1_dedup_check_inverted :
    (verify_message encodeUnit keccakConst recoverTo Origin.none () msg0 sig0 emptyRegistry).result
      = .error (.module .messageAlreadyVerified)
    ∧ (verify_message encodeUnit keccakConst recoverTo Origin.none () msg0 sig0 verifiedRegistry).result
      = .ok () :=
  ⟨rfl, rfl⟩

/-- C2 (code evaluated at the failing input): a `verify_message` call succeeds
against a registry recording the message as verified, and a second call with
the identical account, message and signature against the resulting registry
succeeds again instead of failing with `MessageAlreadyVerified` — the
at-most-once property fails on the code. -/
theorem C2_at_most_once_violated :
    (verify_message encodeUnit keccakConst recoverTo Origin.none () msg0 sig0 verifiedRegistry).result
      = .ok ()
    ∧ (verify_message encodeUnit keccakConst recoverTo Origin.none () msg0 sig0
        (verify_message encodeUnit keccakConst recoverTo Origin.none () msg0 sig0
          verifiedRegistry).state).result
      = .ok () :=
  ⟨rfl, rfl⟩

/-- C3 (code evaluated at the failing input): a successful `verify_message`
call deposits the `MessageVerified(account, message, true)` event but performs
no `mark_verified`: starting from a registry holding `Some(false)` for the
message, the entry after the successful call is still `Some(false)`, not
`Some(true)`. -/
theorem C3_success_commits_nothing :
    (verify_message encodeUnit keccakConst recoverTo Origin.none () msg0 sig0 falseRegistry).result
      = .ok ()
    ∧ (verify_message encodeUnit keccakConst recoverTo Origin.none () msg0 sig0
        falseRegistry).state msg0 = some false
    ∧ (verify_message encodeUnit keccakConst recoverTo Origin.none () msg0 sig0
        falseRegistry).events = [.messageVerified () msg0 true] :=
  ⟨rfl, rfl, rfl⟩

/-- C5: `eth_recover` is total on malformed cryptographic input — when
secp256k1 recovery of the signature against the keccak digest of the signable
message fails it returns `none` — and on success it returns the address formed
from the last 20 bytes of the Keccak-256 hash of the recovered public key
(bytes `[12..]` of the 32-byte digest). -/
theorem C5_eth_recover_cases (keccak : List Nat → List Nat)
    (secpRecover : List Nat → List Nat → Option (List Nat))
    (s : EcdsaSignature) (what extra : List Nat) :
    (secpRecover s.bytes (keccak (ethereum_signable_message what extra)) = none →
      eth_recover keccak secpRecover s what extra = none)
    ∧ (∀ pubkey, secpRecover s.bytes (keccak (ethereum_signable_message what extra)) = some pubkey →
        (keccak pubkey).length = 32 →
        eth_recover keccak secpRecover s what extra
          = some ⟨(keccak pubkey).drop ((keccak pubkey).length - 20)⟩) := by
  constructor
  · intro h
    simp only [eth_recover, h]
  · intro pubkey h hlen
    simp only [eth_recover, h, hlen]

/-- C5 witness: the success case evaluated at a concrete signature with the
concrete stand-ins for the host primitives. -/
theorem C5_witness :
    eth_recover keccakConst recoverTo sig0 [] []
      = some ⟨(keccakConst pubkey0).drop ((keccakConst pubkey0).length - 20)⟩ :=
  (C5_eth_recover_cases keccakConst recoverTo sig0 [] []).2 pubkey0 rfl rfl

/-- C7: parsing `0x` followed by 38 hex characters fails with the length
error, and parsing `0x` followed by `gg` and 38 hex characters (40 characters,
one pair non-hex) fails with the hex-digit error. -/
theorem C7_parse_boundary :
    deserialize ('0' :: 'x' :: (List.replicate 19 ['a', 'b']).flatten)
      = .error .invalidAddressLength
    ∧ deserialize ('0' :: 'x' :: 'g' :: 'g' :: (List.replicate 19 ['0', '0']).flatten)
      = .error .invalidHexDigit :=
  ⟨rfl, rfl⟩

/-- C9: whenever recovery succeeds, `validate_unsigned` accepts with exactly
the ticket priority 100, empty `requires`, `provides` a single tag for the
recovered signer, maximum longevity `2 ^ 64 - 1`, `propagate = true`; it
returns the registry untouched; and running it again on the returned registry
reproduces the identical outcome. -/
theorem C9_admission_ticket {AccountId : Type} (encode : AccountId → List Nat)
    (keccak : List Nat → List Nat)
    (secpRecover : List Nat → List Nat → Option (List Nat))
    (account : AccountId) (m : Message) (s : EcdsaSignature) (st : RegistryState)
    (signer : EthereumAddress)
    (h : eth_recover keccak secpRecover s (encode account) m.bytes = some signer) :
    (validate_unsigned encode keccak secpRecover (Call.verifyMessage account m s) st).1
        = .ok ⟨100, [], [("claims", signer)], 2 ^ 64 - 1, true⟩
    ∧ (validate_unsigned encode keccak secpRecover (Call.verifyMessage account m s) st).2 = st
    ∧ validate_unsigned encode keccak secpRecover (Call.verifyMessage account m s)
        ((validate_unsigned encode keccak secpRecover (Call.verifyMessage account m s) st).2)
      = validate_unsigned encode keccak secpRecover (Call.verifyMessage account m s) st := by
  refine ⟨?_, rfl, rfl⟩
  simp only [validate_unsigned, h]

/-- C9 witness: the ticket, registry frame and idempotence evaluated at a
concrete call with the concrete stand-ins for the host primitives. -/
theorem C9_witness :
    (validate_unsigned encodeUnit keccakConst recoverTo (Call.verifyMessage () msg0 sig0)
        emptyRegistry).1
      = .ok ⟨100, [], [("claims", addr0)], 2 ^ 64 - 1, true⟩
    ∧ (validate_unsigned encodeUnit keccakConst recoverTo (Call.verifyMessage () msg0 sig0)
        emptyRegistry).2 = emptyRegistry
    ∧ validate_unsigned encodeUnit keccakConst recoverTo (Call.verifyMessage () msg0 sig0)
        ((validate_unsigned encodeUnit keccakConst recoverTo (Call.verifyMessage () msg0 sig0)
          emptyRegistry).2)
      = validate_unsigned encodeUnit keccakConst recoverTo (Call.verifyMessage () msg0 sig0)
          emptyRegistry :=
  C9_admission_ticket encodeUnit keccakConst recoverTo () msg0 sig0 emptyRegistry addr0 rfl

/-- C8 counterexample: the admission path accepts a `verify_message` call for
a message the registry records as verified (`Some(true)`), because
`validate_unsigned` never consults `MessageState` — contradicting the claim
that it performs the deduplication-rejection step. -/
theorem C8_counterexample :
    verifiedRegistry msg0 = some true
    ∧ (validate_unsigned encodeUnit keccakConst recoverTo (Call.verifyMessage () msg0 sig0)
        verifiedRegistry).1
      = .ok ⟨100, [], [("claims", addr0)], 2 ^ 64 - 1, true⟩ :=
  ⟨rfl, rfl⟩

/-- C8 amended: the admission path performs the recovery step of verify
without mutating state — it returns the registry untouched, its decision is
independent of the registry contents (so it does not reject already-verified
messages), it rejects with `BadProof` exactly when address recovery fails,
and it rejects any other call with `Call`; it performs no success-commit. -/
theorem C8_admission_amended {AccountId : Type} (encode : AccountId → List Nat)
    (keccak : List Nat → List Nat)
    (secpRecover : List Nat → List Nat → Option (List Nat))
    (account : AccountId) (m : Message) (s : EcdsaSignature) (st st' : RegistryState) :
    (validate_unsigned encode keccak secpRecover (Call.verifyMessage account m s) st).2 = st
    ∧ (validate_unsigned encode keccak secpRecover (Call.verifyMessage account m s) st).1
        = (validate_unsigned encode keccak secpRecover (Call.verifyMessage account m s) st').1
    ∧ (eth_recover keccak secpRecover s (encode account) m.bytes = none ↔
        (validate_unsigned encode keccak secpRecover (Call.verifyMessage account m s) st).1
          = .error .badProof)
    ∧ (validate_unsigned encode keccak secpRecover Call.otherCall st).1 = .error .call := by
  refine ⟨rfl, rfl, ?_, rfl⟩
  cases h : eth_recover keccak secpRecover s (encode account) m.bytes with
  | none => simp [validate_unsigned, h]
  | some signer => simp [validate_unsigned, h]

/-! ### Lemmas for the address-codec round trip -/

lemma toHex_length (bs : List Nat) : (toHex bs).length = 2 * bs.length := by
  induction bs with
  | nil => rfl
  | cons b rest ih =>
    simp only [toHex, List.map_cons, List.flatten_cons, List.length_append,
      List.length_cons, List.length_nil] at ih ⊢
    omega

lemma fromHexDigit_hexDigitChar (n : Nat) (h : n < 16) :
    fromHexDigit (hexDigitChar n) = some n := by
  interval_cases n <;> decide

lemma from_hex_toHex (bs : List Nat) (h : ∀ b ∈ bs, b < 256) :
    from_hex (toHex bs) = .ok bs := by
  induction bs with
  | nil => rfl
  | cons b rest ih =>
    have hb : b < 256 := h b (List.mem_cons_self b rest)
    have hhi : b / 16 < 16 := by omega
    have hlo : b % 16 < 16 := by omega
    have hstep : toHex (b :: rest)
        = hexDigitChar (b / 16) :: hexDigitChar (b % 16) :: toHex rest := by
      simp [toHex]
    rw [hstep]
    simp only [from_hex, fromHexDigit_hexDigitChar _ hhi, fromHexDigit_hexDigitChar _ hlo,
      ih (fun x hx => h x (List.mem_cons_of_mem b hx)), Except.map]
    rw [Nat.div_add_mod]

/-- C6: the address codec round-trips — deserializing the `0x`-prefixed
lowercase-hex serialization of any 20-byte address yields that address. -/
theorem C6_round_trip (a : EthereumAddress) (hlen : a.bytes.length = 20)
    (hbytes : ∀ b ∈ a.bytes, b < 256) :
    deserialize (serialize a) = .ok a := by
  have h40 : (toHex a.bytes).length = 40 := by rw [toHex_length, hlen]
  simp only [serialize, deserialize, List.take_succ_cons, List.take_zero, List.drop_succ_cons,
    List.drop_zero, if_pos rfl, ite_true, h40, ne_eq, not_true_eq_false, ite_false,
    from_hex_toHex a.bytes hbytes]

/-- C6 witness: the round trip evaluated at the concrete address whose 20
bytes are all `0xab`. -/
theorem C6_witness :
    deserialize (serialize ⟨List.replicate 20 171⟩) = .ok ⟨List.replicate 20 171⟩ :=
  C6_round_trip ⟨List.replicate 20 171⟩ (by decide) (by decide)

/-! ### The decimal length prefix of the signable message -/

lemma lenDigitsRevAux_eq (fuel : Nat) : ∀ l : Nat, l ≤ fuel →
    lenDigitsRevAux fuel l = (Nat.digits 10 l).map (fun d => 48 + d) := by
  induction fuel with
  | zero =>
    intro l hl
    interval_cases l
    simp [lenDigitsRevAux]
  | succ n ih =>
    intro l hl
    by_cases h0 : l = 0
    · subst h0
      simp [lenDigitsRevAux]
    · have hdiv : l / 10 < l := Nat.div_lt_self (Nat.pos_of_ne_zero h0) (by norm_num)
      rw [lenDigitsRevAux, if_neg h0,
        Nat.digits_def' (by norm_num : (1 : ℕ) < 10) (Nat.pos_of_ne_zero h0),
        List.map_cons, ih (l / 10) (by omega)]

/-- The digit bytes pushed by the loop of `ethereum_signable_message` are the
little-endian base-10 digits of the length, each offset by ASCII `'0'`. -/
lemma lenDigitsRev_eq_digits (l : Nat) :
    lenDigitsRev l = (Nat.digits 10 l).map (fun d => 48 + d) :=
  lenDigitsRevAux_eq l l (Nat.le_refl l)

/-- Modelled from the spec: the decimal ASCII rendering the spec prescribes
for the length prefix — the digits of `n` with no leading zeros, where `n = 0`
renders as the single character `"0"` (ASCII 48). -/
def specLengthAscii (n : Nat) : List Nat :=
  if n = 0 then [48] else ((Nat.digits 10 n).map (fun d => 48 + d)).reverse

/-- C4 counterexample: at `body = suffix = []` (so `n = 0`) the code emits no
digit bytes at all, while the claim demands the single character `"0"`; the
two byte strings differ. -/
theorem C4_counterexample :
    ethereum_signable_message [] []
      ≠ ("\x19Ethereum Signed Message:\n".toList.map Char.toNat)
          ++ specLengthAscii 0 ++ [] ++ [] := by
  decide

/-- C4 amended: `ethereum_signable_message body suffix` is the literal prefix
`"\x19Ethereum Signed Message:\n"`, then the decimal ASCII digits of
`n = len(body) + len(suffix)` with no leading zeros — where `n = 0` renders as
the EMPTY digit string, not `"0"` — then `body`, then `suffix`; the
hello/world instance holds as claimed. -/
theorem C4_preimage_amended :
    (∀ what extra : List Nat,
      ethereum_signable_message what extra
        = ("\x19Ethereum Signed Message:\n".toList.map Char.toNat)
            ++ ((Nat.digits 10 (what.length + extra.length)).map (fun d => 48 + d)).reverse
            ++ what ++ extra)
    ∧ ethereum_signable_message ("hello".toList.map Char.toNat) ("world".toList.map Char.toNat)
        = ("\x19Ethereum Signed Message:\n10helloworld".toList.map Char.toNat) := by
  constructor
  · intro what extra
    unfold ethereum_signable_message
    rw [lenDigitsRev_eq_digits]
  · rfl

end CableOracle
